import Mathlib

/-!
Verification of an epoch-based memory reclamation core (a crossbeam-epoch
snapshot).

The definitions below are a shallow embedding of the Rust sources: machine
words (`usize`) are natural numbers below `2 ^ 64`, atomic cells are explicit
state, and the lock-free structures are modelled functionally.  The claims
under scrutiny concern the sequential functional behaviour of each operation,
so one atomic step of the source is one function application here.
-/

/-! ## Machine words -/

/-- The number of values of `usize` (the model fixes a 64-bit word). -/
def USIZE : Nat := 2 ^ 64

/-- The all-ones 64-bit word. -/
def UMAX : Nat := USIZE - 1

/-- Bitwise complement of a 64-bit word (`!x` in Rust). -/
def unot (x : Nat) : Nat := UMAX ^^^ x

/-- Wrapping subtraction on `usize` (`a.wrapping_sub(b)` for `b < USIZE`). -/
def wsub (a b : Nat) : Nat := (a + (USIZE - b % USIZE)) % USIZE

/-- Wrapping addition on `usize` (`a.wrapping_add(b)`). -/
def wadd (a b : Nat) : Nat := (a + b) % USIZE

/-! ## Tagged pointer layer (`src/atomic.rs`)

`fn low_bits<T>() -> usize { (1 << mem::align_of::<T>().trailing_zeros()) - 1 }`.
Rust alignments are powers of two; throughout, `k` stands for
`align_of::<T>().trailing_zeros()`, so that `align_of::<T>() = 2 ^ k`. -/

/-- The mask of unused least significant bits of an aligned pointer to `T`. -/
def low_bits (k : Nat) : Nat := (1 <<< k) - 1

/-- `fn data_with_tag<T>(data: usize, tag: usize) -> usize`:
`(data & !low_bits::<T>()) | (tag & low_bits::<T>())`. -/
def data_with_tag (k data tag : Nat) : Nat :=
  (data &&& unot (low_bits k)) ||| (tag &&& low_bits k)

/-- `fn decompose_data<T>(data: usize) -> (*mut T, usize)`: the raw pointer
`data & !low_bits::<T>()` together with the tag `data & low_bits::<T>()`. -/
def decompose_data (k data : Nat) : Nat × Nat :=
  (data &&& unot (low_bits k), data &&& low_bits k)

/-- A `Ptr<'g, T>`: one tagged machine word (the lifetime is erased). -/
structure Ptr where
  data : Nat
deriving DecidableEq, Repr

/-- `Ptr::null()`. -/
def Ptr.null : Ptr := ⟨0⟩

/-- `Ptr::as_raw(&self)`: the address bits of the word. -/
def Ptr.as_raw (k : Nat) (p : Ptr) : Nat := (decompose_data k p.data).1

/-- `Ptr::is_null(&self)`: `self.as_raw().is_null()`. -/
def Ptr.isNull (k : Nat) (p : Ptr) : Bool := Ptr.as_raw k p == 0

/-- `Ptr::tag(&self)`. -/
def Ptr.tagOf (k : Nat) (p : Ptr) : Nat := (decompose_data k p.data).2

/-- `Ptr::with_tag(&self, tag)`: `Self::from_data(data_with_tag::<T>(self.data, tag))`. -/
def Ptr.withTag (k : Nat) (p : Ptr) (tag : Nat) : Ptr := ⟨data_with_tag k p.data tag⟩

/-- `impl PartialEq for Ptr` compares the whole tagged words:
`self.data == other.data` (which is exactly equality of the `Ptr` structure). -/
def Ptr.eqPtr (p q : Ptr) : Bool := p.data == q.data

/-! ## The epoch cell and `try_advance` (`src/epoch.rs`) -/

/-- One step of the registry iterator, as consumed by `Epoch::try_advance`:
either `Err(IterError::LostRace)` or `Ok(local_epoch)` carrying the state word
of a live registry. -/
inductive IterItem where
  | lostRace : IterItem
  | reg (state : Nat) : IterItem
deriving DecidableEq, Repr

/-- `LocalEpoch::get_state`: `((state & 1) == 1, state & !1)`. -/
def get_state (state : Nat) : Bool × Nat := ((state &&& 1) == 1, state &&& unot 1)

/-- The condition on which the traversal in `try_advance` gives up: a lost
race, or a registry pinned in an epoch different from the loaded one. -/
def blocks (epoch : Nat) : IterItem → Bool
  | .lostRace => true
  | .reg st => (get_state st).1 && ((get_state st).2 != epoch)

/-- The traversal loop of `try_advance`; `true` means the loop ran to
completion (no early `return epoch`). -/
def try_advance_loop (epoch : Nat) : List IterItem → Bool
  | [] => true
  | item :: rest => if blocks epoch item then false else try_advance_loop epoch rest

/-- `Epoch::try_advance`.  `globalEpoch` is the value the `Relaxed` load at
entry returns (the cell's current content in this sequential model);
`registries` is the sequence of iterator results.  Returns
`(returned value, content of the epoch cell afterwards)`. -/
def try_advance (globalEpoch : Nat) (registries : List IterItem) : Nat × Nat :=
  let epoch := globalEpoch
  if try_advance_loop epoch registries then
    let epoch_new := wadd epoch 2
    (epoch_new, epoch_new)
  else
    (epoch, globalEpoch)

/-! ## Garbage, bags (`src/garbage.rs`, `src/deferred.rs`) -/

/-- One slot of `Bag::objects`: either a stored garbage closure (identified by
a label) or the `mem::zeroed()` filler the array is initialised with. -/
inductive Slot where
  | filled (id : Nat)
  | zeroed
deriving DecidableEq, Repr

/-- An observable effect of running drop glue on one `Garbage` value. -/
inductive DropEffect where
  | run (id : Nat)
  | zeroedDrop
deriving DecidableEq, Repr

/-- `impl Drop for Garbage`: dropping a stored garbage value executes its
closure (`Destroy` calls `destroy(object, size)`, `Fn` takes and calls the
boxed closure); dropping a `mem::zeroed()` value executes the drop glue on an
all-zero word pattern (a null `destroy` function pointer, or `unwrap` of a
`None` closure) — modelled as the distinguished effect `zeroedDrop`. -/
def garbage_drop_effect : Slot → DropEffect
  | .filled id => .run id
  | .zeroed => .zeroedDrop

/-- `Bag`: `len` counts the stored objects; `objects` models the backing array
`[Garbage; MAX_OBJECTS]` (its length is the capacity, 64 in the normal build
and 4 under `strict_gc`). -/
structure Bag where
  len : Nat
  objects : List Slot
deriving DecidableEq, Repr

/-- `Bag::new()`: `len: 0`, `objects: unsafe { mem::zeroed() }`. -/
def Bag.new (cap : Nat) : Bag := ⟨0, List.replicate cap .zeroed⟩

/-- `Bag::is_empty`. -/
def Bag.isEmpty (b : Bag) : Bool := b.len == 0

/-- `Bag::try_insert` (invoked as `try_push` from `Scope::defer_garbage`):
fails iff `self.len == self.objects.len()`; otherwise writes the garbage into
slot `len` and increments `len`. -/
def Bag.tryInsert (b : Bag) (g : Nat) : Except Nat Bag :=
  if b.len = b.objects.length then .error g
  else .ok ⟨b.len + 1, b.objects.set b.len (.filled g)⟩

/-- Effects of the explicit loop in `impl Drop for Bag`:
`for garbage in self.objects.into_iter().take(self.len) { drop(garbage) }`.
`self.objects` is reached through `&mut self`, so the array's `into_iter()`
resolves (through auto-ref and unsized coercion, Rust 2015, array size 64 >
32) to iteration over `&Garbage` shared references, and `drop(garbage)` drops
a shared reference — which runs no drop glue at all. -/
def bag_drop_loop_effects (_ : Bag) : List DropEffect := []

/-- After `Drop::drop` returns, the bag's fields are dropped: the whole
`objects: [Garbage; MAX_OBJECTS]` array, running `Garbage::drop` on every
slot — the `mem::zeroed()` fillers beyond index `len` included. -/
def bag_field_drop_effects (b : Bag) : List DropEffect :=
  b.objects.map garbage_drop_effect

/-- All effects of dropping a `Bag`. -/
def bag_drop_effects (b : Bag) : List DropEffect :=
  bag_drop_loop_effects b ++ bag_field_drop_effects b

/-- `Deferred` (`src/deferred.rs`): the `vtable` word is set to null once the
closure has been called; the value `1` marks the heap-boxed variant, any other
non-null value is the vtable of the inline variant.  `fnId` labels the stored
`FnOnce`. -/
structure Deferred where
  vtable : Nat
  fnId : Nat
deriving DecidableEq, Repr

/-- Outcome of `Deferred::call`. -/
inductive CallOutcome where
  | ran (id : Nat)
  | panicked
deriving DecidableEq, Repr

/-- `Deferred::call`: `mem::replace(&mut self.vtable, null)`; the assert
panics (`"cannot call FnOnce more than once"`) if the vtable already was
null; otherwise both the inline path (`copy_and_call`) and the boxed path
(`call_box`) run the stored function exactly once. -/
def Deferred.callFn (d : Deferred) : CallOutcome × Deferred :=
  let vtable := d.vtable
  let d1 : Deferred := { d with vtable := 0 }
  if vtable = 0 then (.panicked, d1) else (.ran d.fnId, d1)

/-- `Deferred` implements no `Drop`, and its fields (`*mut ()` and
`[usize; 3]`) carry no drop glue: dropping a `Deferred` executes nothing (an
uncalled closure is leaked).  The list records the labels of the stored
functions executed by the drop. -/
def Deferred.dropRuns (_ : Deferred) : List Nat := []

/-! ## The queue (`src/sync/ms_queue.rs`, `src/sync/queue.rs`) -/

/-- Functional content of `MsQueue::try_pop_if` — the only implemented
conditional pop in the snapshot.  `pop_internal` first unlinks the head node
(CAS of `head` to `next`, deferred free of the old sentinel) and reads out its
data; only then is the condition evaluated.  When the condition rejects the
item the code runs `mem::forget(h); return None`: the item has already been
dequeued and is leaked. -/
def try_pop_if {α : Type} (condition : α → Bool) : List α → Option α × List α
  | [] => (none, [])
  | h :: t => if condition h then (some h, t) else (none, t)

/-- A panic abort in the embedded fragment. -/
inductive RustPanic where
  | unimpl
deriving DecidableEq, Repr

/-- `src/sync/queue.rs`: `Queue::new()` is `unimplemented!()` — it panics. -/
def stub_queue_new (β : Type) : Except RustPanic (List β) :=
  .error .unimpl

/-- `src/sync/queue.rs`: `Queue::push` is `unimplemented!()`. -/
def stub_queue_push {β : Type} (_ : List β) (_ : β) : Except RustPanic (List β) :=
  .error .unimpl

/-- `src/sync/queue.rs`: `Queue::try_pop_if` is `unimplemented!()`. -/
def stub_queue_try_pop_if {β : Type} (_ : List β) (_ : β → Bool) :
    Except RustPanic (Option β × List β) :=
  .error .unimpl

/-! ## Global state (`src/collector.rs`) -/

/-- `Global`: the registry list, the garbage queue (of `(usize, Bag)` pairs)
and the epoch cell. -/
structure Global where
  registries : List IterItem
  garbages : List (Nat × Bag)
  epoch : Nat
deriving Repr

/-- `Global::new()`.  `collector.rs` takes its queue type from
`sync::queue::Queue` (`use sync::queue::Queue;`), whose constructor is
`unimplemented!()`; `List::new()` and `Epoch::new()` are total. -/
def global_new : Except RustPanic Global := do
  let registries : List IterItem := []
  let garbages ← stub_queue_new (Nat × Bag)
  let epoch : Nat := 0
  pure ⟨registries, garbages, epoch⟩

/-- `Global::push_bag` as written: load the epoch (`Relaxed`), swap the bag
with an empty one, `SeqCst` fence, then `self.garbages.push(..)` — which is
the stub queue's `unimplemented!()` push. -/
def global_push_bag_stub (g : Global) (cap : Nat) (bag : Bag) :
    Except RustPanic (Global × Bag) := do
  let epoch := g.epoch
  let old := bag
  let fresh := Bag.new cap
  let q ← stub_queue_push g.garbages (epoch, old)
  pure ({ g with garbages := q }, fresh)

/-- `COLLECT_STEPS` (both `Global::COLLECT_STEPS` in `collector.rs` and
`COLLECT_STEPS` in `garbage.rs`). -/
def COLLECT_STEPS : Nat := 8

/-- The reclamation condition used by `collect`: with `diff` the wrapping
difference `epoch - bag.0`, require `min(diff, 0 - diff) > 2`. -/
def reclaimable (epoch : Nat) (bagEntry : Nat × Bag) : Bool :=
  let diff := wsub epoch bagEntry.1
  min diff (wsub 0 diff) > 2

/-- The pop loop shared by `Global::collect` (`collector.rs`) and
`Queue::<(usize, Bag)>::collect` (`garbage.rs`): up to `fuel` iterations of
`try_pop_if` with the reclamation condition, breaking at the first `None`,
dropping every popped bag.  The functional queue semantics is that of the
implemented `MsQueue::try_pop_if` above.  Returns the dropped entries, the
remaining queue and the number of pop attempts made. -/
def collect_loop (epoch : Nat) : Nat → List (Nat × Bag) →
    List (Nat × Bag) × List (Nat × Bag) × Nat
  | 0, q => ([], q, 0)
  | Nat.succ n, q =>
    match try_pop_if (reclaimable epoch) q with
    | (none, q1) => ([], q1, 1)
    | (some bag, q1) =>
      let (dropped, q2, attempts) := collect_loop epoch n q1
      (bag :: dropped, q2, attempts + 1)

/-- `Global::collect`: first `try_advance`, then the pop loop with the
resulting epoch.  Returns the epoch cell's new content, the dropped entries,
the remaining queue and the number of pop attempts. -/
def global_collect (globalEpoch : Nat) (registries : List IterItem)
    (q : List (Nat × Bag)) :
    Nat × List (Nat × Bag) × List (Nat × Bag) × Nat :=
  ((try_advance globalEpoch registries).2,
   collect_loop (try_advance globalEpoch registries).1 COLLECT_STEPS q)

/-- `Global::collect` exactly as written in `collector.rs`: after
`try_advance`, the first loop iteration calls `self.garbages.try_pop_if` —
which is the stub queue's `unimplemented!()`. -/
def global_collect_stub (g : Global) : Except RustPanic Unit := do
  let epoch := (try_advance g.epoch g.registries).1
  let _ ← stub_queue_try_pop_if g.garbages (reclaimable epoch)
  pure ()

/-! ## Handles and pinning (`src/handle.rs`) -/

/-- The per-participant mutable state of a `Handle`: the `is_pinned` cell, the
`pin_count` cell, and the `state` word of its `LocalEpoch` registry entry. -/
structure HandleState where
  isPinned : Bool
  pinCount : Nat
  localState : Nat
deriving DecidableEq, Repr

/-- `Handle::PINS_BETWEEN_COLLECT`. -/
def PINS_BETWEEN_COLLECT : Nat := 128

/-- `LocalEpoch::set_pinned(epoch)`: both architecture paths store
`epoch | 1` into the state word (by CAS from 0, or by plain store + fence). -/
def set_pinned (epoch : Nat) : Nat := epoch ||| 1

/-- `LocalEpoch::set_unpinned()`: stores `0`. -/
def set_unpinned : Nat := 0

/-- The entry half of `Handle::pin`, up to the call of the closure `f`:
updates the handle state; the returned booleans are (whether
`Global::collect` was invoked, the saved `was_pinned` flag). -/
def pin_enter (s : HandleState) (globalEpoch : Nat) : HandleState × Bool × Bool :=
  let was_pinned := s.isPinned
  if was_pinned then
    (s, false, was_pinned)
  else
    let count := s.pinCount
    let s1 : HandleState :=
      { s with
        pinCount := wadd count 1
        isPinned := true
        localState := set_pinned globalEpoch }
    (s1, count % PINS_BETWEEN_COLLECT == 0, was_pinned)

/-- The exit half of `Handle::pin` (the `defer!` block running after `f`):
unpins only when this call was the outermost pinning. -/
def pin_exit (s : HandleState) (was_pinned : Bool) : HandleState :=
  if was_pinned then s
  else { s with localState := set_unpinned, isPinned := false }

/-! ## The defer path (`Scope::defer_garbage` in `src/handle.rs`) -/

/-- The state touched by `Scope::defer_garbage` on a protected scope
(`self.handle` is `Some`): the handle's local bag and the global queue and
epoch cell. -/
structure DeferState where
  bag : Bag
  queue : List (Nat × Bag)
  epoch : Nat
deriving Repr

/-- `Global::push_bag` with the functional queue semantics: read the epoch
with `Relaxed`, replace the bag by `Bag::new()`, `SeqCst` fence, push
`(epoch, old_bag)` onto the global queue. -/
def push_bag (cap : Nat) (s : DeferState) : DeferState :=
  { s with bag := Bag.new cap, queue := s.queue ++ [(s.epoch, s.bag)] }

/-- The `while let Err(g) = bag.try_push(garbage)` loop of
`Scope::defer_garbage`, with fuel (two iterations always suffice: after a
`push_bag` the local bag is empty and the retried insert succeeds). -/
def defer_loop (cap : Nat) : Nat → DeferState → Nat → DeferState
  | 0, s, _ => s
  | Nat.succ n, s, g =>
    match s.bag.tryInsert g with
    | .ok b => { s with bag := b }
    | .error g1 => defer_loop cap n (push_bag cap s) g1

/-- `Scope::defer_garbage` on a protected scope. -/
def defer_garbage (cap : Nat) (s : DeferState) (g : Nat) : DeferState :=
  defer_loop cap 2 s g

/-! ## Bit-level helper lemmas -/

theorem low_bits_eq (k : Nat) : low_bits k = 2 ^ k - 1 := by
  simp [low_bits, Nat.shiftLeft_eq]

theorem testBit_low_bits (k i : Nat) : (low_bits k).testBit i = decide (i < k) := by
  rw [low_bits_eq]
  exact Nat.testBit_two_pow_sub_one k i

theorem testBit_umax (i : Nat) : UMAX.testBit i = decide (i < 64) := by
  have h : UMAX = 2 ^ 64 - 1 := rfl
  rw [h]
  exact Nat.testBit_two_pow_sub_one 64 i

theorem testBit_unot (x i : Nat) :
    (unot x).testBit i = (decide (i < 64) ^^ x.testBit i) := by
  simp [unot, Nat.testBit_xor, testBit_umax]

/-- A word below `2 ^ n` has no set bit at positions `≥ n`. -/
theorem testBit_of_lt {x n i : Nat} (h : x < 2 ^ n) (hi : n ≤ i) :
    x.testBit i = false := by
  apply Nat.testBit_lt_two_pow
  exact lt_of_lt_of_le h (Nat.pow_le_pow_right (by norm_num) hi)

/-- An address aligned to `2 ^ k` has no set bit at positions `< k`. -/
theorem testBit_of_aligned {p k i : Nat} (h : p % 2 ^ k = 0) (hi : i < k) :
    p.testBit i = false := by
  have h1 : (p % 2 ^ k).testBit i = (decide (i < k) && p.testBit i) :=
    Nat.testBit_mod_two_pow p k i
  rw [h] at h1
  simp only [Nat.zero_testBit] at h1
  simpa [hi] using h1.symm

/-- Selecting the address bits of a word produced by `data_with_tag` ignores
the deposited tag. -/
theorem lor_and_unot (k a b : Nat) (hk : k ≤ 64) :
    ((a &&& unot (low_bits k)) ||| (b &&& low_bits k)) &&& unot (low_bits k) =
      a &&& unot (low_bits k) := by
  apply Nat.eq_of_testBit_eq
  intro i
  simp only [Nat.testBit_and, Nat.testBit_lor, testBit_unot, testBit_low_bits]
  by_cases hik : i < k
  · simp [hik, show i < 64 by omega]
  · cases a.testBit i <;> simp [hik]

/-- Selecting the tag bits of a word produced by `data_with_tag` recovers the
masked tag. -/
theorem lor_and_mask (k a b : Nat) (hk : k ≤ 64) :
    ((a &&& unot (low_bits k)) ||| (b &&& low_bits k)) &&& low_bits k =
      b &&& low_bits k := by
  apply Nat.eq_of_testBit_eq
  intro i
  simp only [Nat.testBit_and, Nat.testBit_lor, testBit_unot, testBit_low_bits]
  by_cases hik : i < k
  · simp [hik, show i < 64 by omega]
  · simp [hik]

/-- An aligned word below `2 ^ 64` is unchanged by masking off its tag bits. -/
theorem aligned_and_unot (k p : Nat) (hk : k ≤ 64) (hp : p < 2 ^ 64)
    (hal : p % 2 ^ k = 0) : p &&& unot (low_bits k) = p := by
  apply Nat.eq_of_testBit_eq
  intro i
  simp only [Nat.testBit_and, testBit_unot, testBit_low_bits]
  by_cases h64 : i < 64
  · by_cases hik : i < k
    · simp [h64, hik, testBit_of_aligned hal hik]
    · simp [h64, hik]
  · simp [h64, show ¬ i < k by omega, testBit_of_lt hp (Nat.le_of_not_lt h64)]

/-- A tag below `2 ^ k` is unchanged by masking with the `k` low bits. -/
theorem small_and_mask (k t : Nat) (ht : t < 2 ^ k) : t &&& low_bits k = t := by
  apply Nat.eq_of_testBit_eq
  intro i
  simp only [Nat.testBit_and, testBit_low_bits]
  by_cases hik : i < k
  · simp [hik]
  · simp [hik, testBit_of_lt ht (Nat.le_of_not_lt hik)]

/-! ## C9 -/

/-- C9: Tag encoding and decoding are pure functions that invert each other:
for a pointer `p` aligned to `align_of::<T>() = 2 ^ k` and a tag
`t < 2 ^ ⌊log2 align⌋ = 2 ^ k`, decomposing the word composed from `(p, t)`
returns exactly `(p, t)`; and for arbitrary `data` and `tag` arguments,
composition leaves the address bits of `data` unchanged and masks `tag` to
fit the unused low bits. -/
theorem tag_roundtrip (k p t : Nat) (hk : k ≤ 64) (hp : p < USIZE)
    (hal : p % 2 ^ k = 0) (ht : t < 2 ^ k) :
    decompose_data k (data_with_tag k p t) = (p, t) ∧
    (∀ data tag : Nat,
      (data_with_tag k data tag) &&& unot (low_bits k) = data &&& unot (low_bits k) ∧
      (data_with_tag k data tag) &&& low_bits k = tag &&& low_bits k) := by
  have hp' : p < 2 ^ 64 := hp
  constructor
  · unfold decompose_data data_with_tag
    rw [Prod.mk.injEq]
    rw [lor_and_unot k p t hk, lor_and_mask k p t hk,
      aligned_and_unot k p hk hp' hal, small_and_mask k t ht]
    exact ⟨rfl, rfl⟩
  · intro data tag
    unfold data_with_tag
    exact ⟨lor_and_unot k data tag hk, lor_and_mask k data tag hk⟩

/-- Witness for C9 at `k = 3` (`align_of::<u64>() = 8`), `p = 4096`, `t = 5`. -/
theorem tag_roundtrip_witness :
    decompose_data 3 (data_with_tag 3 4096 5) = (4096, 5) :=
  (tag_roundtrip 3 4096 5 (by norm_num) (by norm_num [USIZE]) (by norm_num)
    (by norm_num)).1

/-! ## C10 -/

/-- C10: `is_null` looks only at the address bits, so a null pointer carrying
a nonzero tag (`Ptr::null().with_tag(t)`) is still reported null; whereas
`PartialEq` on `Ptr` compares the entire tagged word, so `p.with_tag(t1)` and
`p.with_tag(t2)` are unequal whenever the masked tags differ — even though
both carry the same address bits (`as_raw` agrees on them). -/
theorem isNull_tag_independent_eq_tag_sensitive (k t t1 t2 : Nat) (p : Ptr)
    (hk : k ≤ 64) (hne : t1 &&& low_bits k ≠ t2 &&& low_bits k) :
    Ptr.isNull k (Ptr.withTag k Ptr.null t) = true ∧
    Ptr.eqPtr (Ptr.withTag k p t1) (Ptr.withTag k p t2) = false ∧
    Ptr.as_raw k (Ptr.withTag k p t1) = Ptr.as_raw k (Ptr.withTag k p t2) := by
  refine ⟨?_, ?_, ?_⟩
  · unfold Ptr.isNull Ptr.as_raw decompose_data Ptr.withTag Ptr.null data_with_tag
    simp only
    rw [lor_and_unot k 0 t hk]
    simp [Nat.zero_and]
  · unfold Ptr.eqPtr Ptr.withTag data_with_tag
    simp only [beq_eq_false_iff_ne, ne_eq]
    intro h
    apply hne
    have h1 := congrArg (fun x => x &&& low_bits k) h
    simpa [lor_and_mask k p.data t1 hk, lor_and_mask k p.data t2 hk] using h1
  · unfold Ptr.as_raw decompose_data Ptr.withTag data_with_tag
    simp only
    rw [lor_and_unot k p.data t1 hk, lor_and_unot k p.data t2 hk]

/-- Witness for C10 at `k = 3`, `p.data = 4096`, `t = 5`, `t1 = 1`, `t2 = 2`. -/
theorem isNull_tag_independent_eq_tag_sensitive_witness :
    Ptr.isNull 3 (Ptr.withTag 3 Ptr.null 5) = true ∧
    Ptr.eqPtr (Ptr.withTag 3 ⟨4096⟩ 1) (Ptr.withTag 3 ⟨4096⟩ 2) = false :=
  ⟨(isNull_tag_independent_eq_tag_sensitive 3 5 1 2 ⟨4096⟩ (by norm_num)
      (by decide)).1,
   (isNull_tag_independent_eq_tag_sensitive 3 5 1 2 ⟨4096⟩ (by norm_num)
      (by decide)).2.1⟩

/-! ## C1 -/

/-- The traversal loop gives up exactly when some yielded item is blocking. -/
theorem try_advance_loop_false_iff (e : Nat) (l : List IterItem) :
    try_advance_loop e l = false ↔ ∃ item ∈ l, blocks e item = true := by
  induction l with
  | nil => simp [try_advance_loop]
  | cons h t ih =>
    by_cases hb : blocks e h
    · simp [try_advance_loop, hb]
    · simp [try_advance_loop, hb, ih]

/-- `blocks` unfolded to the claim's phrasing. -/
theorem blocks_iff (e : Nat) (item : IterItem) :
    blocks e item = true ↔
      (item = IterItem.lostRace ∨
       ∃ st, item = IterItem.reg st ∧ (get_state st).1 = true ∧ (get_state st).2 ≠ e) := by
  cases item with
  | lostRace => simp [blocks]
  | reg st => simp [blocks, bne_iff_ne]

/-- C1: with `e` the global epoch loaded at entry, if the traversal of the
participant list finds a live registry whose state word is pinned with an
announced epoch different from `e`, or the iterator reports a `LostRace`,
then `try_advance` returns `e` and the epoch cell is unchanged; otherwise it
stores `e + 2` (wrapping) into the cell and returns `e + 2`. -/
theorem try_advance_correct (e : Nat) (regs : List IterItem) :
    ((∃ item ∈ regs, item = IterItem.lostRace ∨
        ∃ st, item = IterItem.reg st ∧ (get_state st).1 = true ∧ (get_state st).2 ≠ e) →
      try_advance e regs = (e, e)) ∧
    (¬ (∃ item ∈ regs, item = IterItem.lostRace ∨
        ∃ st, item = IterItem.reg st ∧ (get_state st).1 = true ∧ (get_state st).2 ≠ e) →
      try_advance e regs = (wadd e 2, wadd e 2)) := by
  constructor
  · rintro ⟨item, hmem, hd⟩
    have hb : blocks e item = true := (blocks_iff e item).mpr hd
    have hl : try_advance_loop e regs = false :=
      (try_advance_loop_false_iff e regs).mpr ⟨item, hmem, hb⟩
    simp [try_advance, hl]
  · intro h
    have hl : try_advance_loop e regs = true := by
      cases hl : try_advance_loop e regs with
      | true => rfl
      | false =>
        obtain ⟨item, hmem, hb⟩ := (try_advance_loop_false_iff e regs).mp hl
        exact absurd ⟨item, hmem, (blocks_iff e item).mp hb⟩ h
    simp [try_advance, hl]

/-- Witness for C1: a registry pinned at epoch 6 blocks advancement from
epoch 4; an unpinned registry does not, and the cell advances to 6. -/
theorem try_advance_correct_witness :
    try_advance 4 [IterItem.reg 7] = (4, 4) ∧
    try_advance 4 [IterItem.reg 6] = (6, 6) := by
  constructor
  · exact (try_advance_correct 4 [IterItem.reg 7]).1
      ⟨IterItem.reg 7, by simp, Or.inr ⟨7, rfl, by decide, by decide⟩⟩
  · refine ((try_advance_correct 4 [IterItem.reg 6]).2 ?_).trans (by decide)
    rintro ⟨item, hmem, h⟩
    simp only [List.mem_singleton] at hmem
    subst hmem
    rcases h with h | ⟨st, hst, hpin, hne⟩
    · exact absurd h (by decide)
    · cases hst
      exact absurd hpin (by decide)

/-! ## C2 -/

/-- The bags dropped by the pop loop are the first `fuel` entries of the
longest reclaimable prefix of the queue. -/
theorem collect_loop_dropped (e : Nat) (fuel : Nat) (q : List (Nat × Bag)) :
    (collect_loop e fuel q).1 = (q.takeWhile (reclaimable e)).take fuel := by
  induction fuel generalizing q with
  | zero => simp [collect_loop]
  | succ n ih =>
    cases q with
    | nil => simp [collect_loop, try_pop_if]
    | cons h t =>
      by_cases hc : reclaimable e h
      · simp [collect_loop, try_pop_if, hc, List.takeWhile_cons, ih]
      · simp [collect_loop, try_pop_if, hc, List.takeWhile_cons]

/-- The number of pop attempts the loop makes. -/
theorem collect_loop_attempts (e : Nat) (fuel : Nat) (q : List (Nat × Bag)) :
    (collect_loop e fuel q).2.2 =
      min fuel ((q.takeWhile (reclaimable e)).length + 1) := by
  induction fuel generalizing q with
  | zero => simp [collect_loop]
  | succ n ih =>
    cases q with
    | nil => simp [collect_loop, try_pop_if]
    | cons h t =>
      by_cases hc : reclaimable e h
      · simp only [collect_loop, try_pop_if, hc, if_pos, List.takeWhile_cons,
          List.length_cons]
        rw [ih]
        omega
      · simp [collect_loop, try_pop_if, hc, List.takeWhile_cons]

/-- `0 - (a - b) = b - a` in wrapping `usize` arithmetic. -/
theorem wsub_zero_wsub (a b : Nat) : wsub 0 (wsub a b) = wsub b a := by
  unfold wsub USIZE
  omega

/-- C2: for an invocation of `Global::collect` with resulting epoch `e_now`
(the value `try_advance` returned), every bag it drops is tagged with an
epoch `e_def` whose wrap-around distance `min(e_now - e_def, e_def - e_now)`
(unsigned wrapping arithmetic) is strictly greater than 2; the loop makes at
most `COLLECT_STEPS = 8` pop attempts, it pops (at most) the first 8 entries
of the reclaimable prefix of the queue, and it stops at the first pop that
returns nothing. -/
theorem global_collect_correct (eG : Nat) (regs : List IterItem)
    (q : List (Nat × Bag)) :
    (global_collect eG regs q).2.1 =
      (q.takeWhile (reclaimable (try_advance eG regs).1)).take COLLECT_STEPS ∧
    (∀ b ∈ (global_collect eG regs q).2.1,
      min (wsub (try_advance eG regs).1 b.1) (wsub b.1 (try_advance eG regs).1) > 2) ∧
    (global_collect eG regs q).2.2.2 =
      min COLLECT_STEPS
        ((q.takeWhile (reclaimable (try_advance eG regs).1)).length + 1) ∧
    (global_collect eG regs q).2.2.2 ≤ COLLECT_STEPS := by
  refine ⟨?_, ?_, ?_, ?_⟩
  · exact collect_loop_dropped _ _ q
  · intro b hb
    simp only [global_collect] at hb
    rw [collect_loop_dropped] at hb
    have hb1 : b ∈ q.takeWhile (reclaimable (try_advance eG regs).1) :=
      List.mem_of_mem_take hb
    have hc : reclaimable (try_advance eG regs).1 b = true :=
      List.mem_takeWhile_imp hb1
    unfold reclaimable at hc
    simp only [decide_eq_true_eq] at hc
    rwa [wsub_zero_wsub] at hc
  · exact collect_loop_attempts _ _ q
  · show (collect_loop (try_advance eG regs).1 COLLECT_STEPS q).2.2 ≤ COLLECT_STEPS
    rw [collect_loop_attempts]
    exact Nat.min_le_left _ _

/-! ## C3 -/

/-- C3 is violated by the code: `try_pop_if` on a non-empty queue whose head
the predicate rejects returns nothing, but the head has been dequeued (and
`mem::forget`-leaked) — the queue does not keep it: popping `[7]` under the
always-false predicate leaves the empty queue, not `[7]`. -/
theorem try_pop_if_discards_rejected_head :
    try_pop_if (fun _ : Nat => false) [7] = (none, []) ∧
    ([] : List Nat) ≠ [7] := by
  exact ⟨rfl, by simp⟩

/-! ## C4 -/

/-- C4 is violated by the code: `collector.rs` takes its garbage queue from
`sync::queue::Queue`, every method of which is `unimplemented!()`.
Constructing the global state (`Global::new`), pushing a bag
(`Global::push_bag`) and running `Global::collect` all panic on the first
queue operation, instead of completing without panicking. -/
theorem global_operations_panic :
    global_new = Except.error RustPanic.unimpl ∧
    global_push_bag_stub ⟨[], [], 0⟩ 64 (Bag.new 64) =
      Except.error RustPanic.unimpl ∧
    global_collect_stub ⟨[], [], 0⟩ = Except.error RustPanic.unimpl := by
  exact ⟨rfl, rfl, rfl⟩

/-! ## C5 -/

/-- Setting the pinned bit: the low bit of `e | 1` is set. -/
theorem lor_one_and_one (e : Nat) : (e ||| 1) &&& 1 = 1 := by
  apply Nat.eq_of_testBit_eq
  intro i
  have h1 : (1 : Nat).testBit i = decide (i < 1) := Nat.testBit_two_pow_sub_one 1 i
  simp only [Nat.testBit_and, Nat.testBit_lor, h1]
  by_cases h0 : i < 1
  · simp [h0]
  · simp [h0]

/-- Clearing the pinned bit of `e | 1` recovers an even `e < USIZE`. -/
theorem lor_one_and_unot_one (e : Nat) (he : e < 2 ^ 64) (heven : e % 2 = 0) :
    (e ||| 1) &&& unot 1 = e := by
  apply Nat.eq_of_testBit_eq
  intro i
  have h1 : (1 : Nat).testBit i = decide (i < 1) := Nat.testBit_two_pow_sub_one 1 i
  simp only [Nat.testBit_and, Nat.testBit_lor, testBit_unot, h1]
  by_cases h0 : i < 1
  · have hi0 : i = 0 := by omega
    subst hi0
    have : e.testBit 0 = false := testBit_of_aligned (k := 1) (by simpa using heven) (by omega)
    simp [this]
  · by_cases h64 : i < 64
    · simp [h0, h64]
    · simp [h0, h64, testBit_of_lt he (Nat.le_of_not_lt h64)]

/-- A pinned announcement decodes to `(pinned, epoch)`. -/
theorem get_state_set_pinned (e : Nat) (he : e < USIZE) (heven : e % 2 = 0) :
    get_state (set_pinned e) = (true, e) := by
  unfold get_state set_pinned
  rw [lor_one_and_one, lor_one_and_unot_one e he heven]
  rfl

/-- C5: pinning while already pinned changes nothing — no epoch announcement,
no pin-counter increment, no collect; the state word is cleared only when the
outermost pin ends (the exit with `was_pinned = true` leaves everything in
place, the exit with `was_pinned = false` clears it).  Pinning while not
pinned increments the pin counter (wrapping), announces
`(pinned, current global epoch)` in the registry state word, and invokes
`collect` exactly when the pin counter's value at entry is a multiple of
`PINS_BETWEEN_COLLECT = 128`. -/
theorem pin_correct (s : HandleState) (e : Nat) (he : e < USIZE)
    (heven : e % 2 = 0) :
    (s.isPinned = true → pin_enter s e = (s, false, true)) ∧
    (s.isPinned = false →
      (pin_enter s e).1.pinCount = wadd s.pinCount 1 ∧
      (pin_enter s e).1.isPinned = true ∧
      (pin_enter s e).1.localState = set_pinned e ∧
      get_state (set_pinned e) = (true, e) ∧
      ((pin_enter s e).2.1 = true ↔ s.pinCount % PINS_BETWEEN_COLLECT = 0) ∧
      (pin_enter s e).2.2 = false) ∧
    (∀ s2 : HandleState, pin_exit s2 true = s2) ∧
    (∀ s2 : HandleState,
      (pin_exit s2 false).localState = set_unpinned ∧
      (pin_exit s2 false).isPinned = false) := by
  refine ⟨?_, ?_, ?_, ?_⟩
  · intro h
    simp [pin_enter, h]
  · intro h
    refine ⟨?_, ?_, ?_, get_state_set_pinned e he heven, ?_, ?_⟩ <;>
      simp [pin_enter, h]
  · intro s2
    simp [pin_exit]
  · intro s2
    simp [pin_exit]

/-- Witness for C5: from the freshly registered state (not pinned, pin count
0, state word 0) a pin at global epoch 4 announces `(pinned, 4)`, bumps the
counter to 1, and invokes collect (0 is a multiple of 128). -/
theorem pin_correct_witness :
    (pin_enter ⟨false, 0, 0⟩ 4).1.pinCount = wadd 0 1 ∧
    (pin_enter ⟨false, 0, 0⟩ 4).1.localState = set_pinned 4 ∧
    get_state (set_pinned 4) = (true, 4) ∧
    (pin_enter ⟨false, 0, 0⟩ 4).2.1 = true := by
  have h := (pin_correct ⟨false, 0, 0⟩ 4 (by norm_num [USIZE]) (by norm_num)).2.1 rfl
  exact ⟨h.1, h.2.2.1, h.2.2.2.1, h.2.2.2.2.1.mpr (by norm_num)⟩

/-! ## C6 -/

/-- C6: on a protected scope, deferring a garbage object pushes it into the
participant's local bag; when the bag is full (`len` equals the capacity —
64 in the normal build, 4 in the strict-testing build), the full bag is
swapped with a fresh empty bag and pushed onto the global queue tagged with
the global epoch read at handoff time, after which the garbage object is
stored into the new, now-empty bag (slot 0). -/
theorem defer_garbage_correct (cap : Nat) (s : DeferState) (g : Nat)
    (hcap : cap = 64 ∨ cap = 4) (hlen : s.bag.objects.length = cap) :
    (s.bag.len < cap →
      defer_garbage cap s g =
        { s with bag := ⟨s.bag.len + 1, s.bag.objects.set s.bag.len (.filled g)⟩ }) ∧
    (s.bag.len = cap →
      defer_garbage cap s g =
        ⟨⟨1, (List.replicate cap Slot.zeroed).set 0 (.filled g)⟩,
         s.queue ++ [(s.epoch, s.bag)], s.epoch⟩) := by
  have hcap1 : 1 ≤ cap := by rcases hcap with h | h <;> omega
  constructor
  · intro hlt
    have hne : s.bag.len ≠ s.bag.objects.length := by omega
    simp [defer_garbage, defer_loop, Bag.tryInsert, hne]
  · intro heq
    have hfull : s.bag.len = s.bag.objects.length := by omega
    have h0 : ¬ ((0 : Nat) = cap) := by omega
    simp [defer_garbage, defer_loop, Bag.tryInsert, hfull, h0, push_bag, Bag.new]

/-- Witness for C6 in the strict-testing build (capacity 4): deferring into a
full bag hands the bag off to the global queue tagged with the current epoch
(10) and stores the new object into the fresh bag. -/
theorem defer_garbage_correct_witness :
    defer_garbage 4
        ⟨⟨4, [Slot.filled 1, Slot.filled 2, Slot.filled 3, Slot.filled 4]⟩, [], 10⟩ 5 =
      ⟨⟨1, (List.replicate 4 Slot.zeroed).set 0 (Slot.filled 5)⟩,
       [(10, ⟨4, [Slot.filled 1, Slot.filled 2, Slot.filled 3, Slot.filled 4]⟩)], 10⟩ :=
  (defer_garbage_correct 4
      ⟨⟨4, [Slot.filled 1, Slot.filled 2, Slot.filled 3, Slot.filled 4]⟩, [], 10⟩ 5
      (Or.inr rfl) rfl).2 rfl

/-! ## C7 -/

/-- C7 is violated by the code: dropping a bag holding `n` closures must
execute exactly those `n` and nothing else, but dropping a fresh normal-build
bag (`n = 0`) runs the `Garbage` drop glue of all 64 `mem::zeroed()` slots:
the explicit loop in `impl Drop for Bag` iterates shared references (dropping
which is a no-op), and the subsequent implicit drop of the `objects` field
drops the entire 64-slot array, zeroed fillers included. -/
theorem bag_drop_runs_zeroed_slots :
    bag_drop_effects (Bag.new 64) = List.replicate 64 DropEffect.zeroedDrop ∧
    bag_drop_effects (Bag.new 64) ≠ [] := by
  constructor
  · simp [bag_drop_effects, bag_drop_loop_effects, bag_field_drop_effects,
      Bag.new, garbage_drop_effect, List.map_replicate]
  · simp [bag_drop_effects, bag_drop_loop_effects, bag_field_drop_effects,
      Bag.new, List.map_replicate]

/-! ## C8 -/

/-- C8's third conjunct is false on the code: `Deferred` implements no `Drop`,
so dropping an uncalled `Deferred` (here an inline closure labelled 0 behind
vtable word 5) executes nothing — in particular it does not execute the
stored function. -/
theorem deferred_drop_runs_nothing :
    Deferred.dropRuns ⟨5, 0⟩ = [] ∧ Deferred.dropRuns ⟨5, 0⟩ ≠ [0] := by
  exact ⟨rfl, by simp [Deferred.dropRuns]⟩

/-- C8 amended: the first call of a `Deferred` executes the stored function
exactly once (nulling the vtable word); a second call panics; dropping the
object without having called it does NOT execute the stored function (the
closure is leaked, `Deferred` having no `Drop`); it is the separate `Garbage`
type whose drop executes the stored closure. -/
theorem deferred_call_spec (d : Deferred) (h : d.vtable ≠ 0) :
    (d.callFn).1 = CallOutcome.ran d.fnId ∧
    (d.callFn).2.vtable = 0 ∧
    ((d.callFn).2.callFn).1 = CallOutcome.panicked ∧
    Deferred.dropRuns d = [] ∧
    (∀ i, garbage_drop_effect (Slot.filled i) = DropEffect.run i) := by
  refine ⟨?_, ?_, ?_, rfl, fun i => rfl⟩
  · simp [Deferred.callFn, h]
  · simp [Deferred.callFn, h]
  · simp [Deferred.callFn, h]

/-- Witness for C8 (amended) at the inline closure labelled 3 behind vtable
word 5. -/
theorem deferred_call_spec_witness :
    (Deferred.callFn ⟨5, 3⟩).1 = CallOutcome.ran 3 ∧
    ((Deferred.callFn ⟨5, 3⟩).2.callFn).1 = CallOutcome.panicked := by
  have h := deferred_call_spec ⟨5, 3⟩ (by norm_num)
  exact ⟨h.1, h.2.2.1⟩

/-- Witness for C2: from epoch 10 with no registries the epoch advances to
12, and the one queued bag tagged 0 is at wrap-distance 12 > 2, so it is
dropped. -/
theorem global_collect_correct_witness :
    min (wsub (try_advance 10 []).1 0) (wsub 0 (try_advance 10 []).1) > 2 :=
  (global_collect_correct 10 [] [(0, Bag.new 4)]).2.1 (0, Bag.new 4) (by decide)
